import Mathlib

set_option maxRecDepth 8000

/-!
Shallow embedding of `src/html/validation.js` (qb-multicharacter character
creation validator) and proofs about its validation rules.

Field values are modelled as `Option String` (`none` = JavaScript
`undefined`), fallible computations as `Except Unit _` (`.error ()` = a
thrown `TypeError`), and JavaScript `Date` objects as normalized civil
dates (`CivilDate`), which is faithful because every `Date` constructed by
the source is at UTC midnight, so timestamp order coincides with
lexicographic order on the (year, month, day) triple.
-/

/-- A proleptic-Gregorian calendar date. The source only ever builds dates
whose normalized year is at least 1898, so a `Nat` year is adequate
(JavaScript would allow negative years, which never arise here). -/
structure CivilDate where
  year : Nat
  month : Nat  -- 1..12 once normalized
  day : Nat    -- 1..31 once normalized
deriving DecidableEq

/-- Gregorian leap-year rule, as used by ECMAScript `Date`. -/
def isLeap (y : Nat) : Bool :=
  (y % 4 == 0 && y % 100 != 0) || y % 400 == 0

/-- Number of days in month `m` (1..12) of year `y`. -/
def daysInMonth (y m : Nat) : Nat :=
  if m == 2 then (if isLeap y then 29 else 28)
  else if m == 4 || m == 6 || m == 9 || m == 11 then 30
  else 31

/-- The calendar successor of a date. -/
def nextDay (c : CivilDate) : CivilDate :=
  if c.day < daysInMonth c.year c.month then ⟨c.year, c.month, c.day + 1⟩
  else if c.month < 12 then ⟨c.year, c.month + 1, 1⟩
  else ⟨c.year + 1, 1, 1⟩

/-- The calendar predecessor of a date. -/
def prevDay (c : CivilDate) : CivilDate :=
  if 1 < c.day then ⟨c.year, c.month, c.day - 1⟩
  else if 1 < c.month then ⟨c.year, c.month - 1, daysInMonth c.year (c.month - 1)⟩
  else ⟨c.year - 1, 12, 31⟩

/-- Shift a date forward by `n` days. -/
def addDays (c : CivilDate) : Nat → CivilDate
  | 0 => c
  | n + 1 => addDays (nextDay c) n

/-- Models the civil date produced by ECMAScript `new Date(y, m - 1, d)`
and `Date.UTC(y, m - 1, d)` for nonnegative integer components as they
occur in the source (`y*12 + m ≥ 1`): years 0..99 are mapped to
1900..1999 (the two-digit-year rule of `MakeFullYear`), an out-of-range
month index carries into the year, and an out-of-range day (including 0)
carries into the month.  The source always reads such a date back with
the UTC/local getters matching its constructor, so the civil triple is
all that is observed. -/
def jsDateFromComponents (y m d : Nat) : CivilDate :=
  let yAdj := if y ≤ 99 then 1900 + y else y
  let t := yAdj * 12 + m - 1   -- zero-based total month count for index m-1
  let base : CivilDate := ⟨t / 12, t % 12 + 1, 1⟩
  if d = 0 then prevDay base else addDays base (d - 1)

/-- Strict order on civil dates; agrees with comparison of the millisecond
timestamps of the corresponding UTC-midnight `Date` objects. -/
def civilLt (a b : CivilDate) : Bool :=
  a.year < b.year ||
    (a.year == b.year &&
      (a.month < b.month || (a.month == b.month && a.day < b.day)))

/-- Decimal value of a list of digit characters. -/
def digitsVal (cs : List Char) : Nat :=
  cs.foldl (fun a c => a * 10 + (c.toNat - 48)) 0

/-- Models JavaScript `String.prototype.split` with a single-character
separator: groups of characters between occurrences of `sep`; the empty
string yields one empty group. -/
def splitOnChar (sep : Char) : List Char → List (List Char)
  | [] => [[]]
  | c :: cs =>
      let r := splitOnChar sep cs
      if c == sep then [] :: r
      else
        match r with
        | [] => [[c]]
        | g :: gs => (c :: g) :: gs

/-- Models JavaScript `Array.prototype.join("|")`. -/
def joinBar : List String → List Char
  | [] => []
  | [s] => s.data
  | s :: rest => s.data ++ '|' :: joinBar rest

/-- Models JavaScript `Number` on the fragment the validator feeds it:
the empty string is 0 and a nonempty all-digit string is its decimal
value; everything else is NaN (`none`).  (Signs, whitespace, fractions,
exponents and hex forms of the full `Number` grammar never reach this
code through the claims' inputs and are conservatively mapped to NaN.) -/
def jsNumberNat (cs : List Char) : Option Nat :=
  if cs.isEmpty then some 0
  else if cs.all Char.isDigit then some (digitsVal cs) else none

/-- Models `value` coerced to a string where the source passes a possibly
`undefined` value to a regex test (`RegExp.prototype.test` stringifies
`undefined` to `"undefined"`). -/
def jsToString (v : Option String) : String :=
  match v with
  | none => "undefined"
  | some s => s

/-- Models `parseISODate`: `(dateString || "").split("-").map(Number)`,
destructured into the first three components (extra components are
ignored, missing ones are `undefined`, i.e. NaN after `Number`), failing
(`Invalid Date`) when any of the three is falsy (0, NaN or missing). -/
def parseISODate (v : Option String) : Option (Nat × Nat × Nat) :=
  let s := match v with | none => "" | some s => s
  match ((splitOnChar '-' s.data).map jsNumberNat) with
  | some y :: some m :: some d :: _ =>
      if y == 0 || m == 0 || d == 0 then none else some (y, m, d)
  | _ => none

/-- Models the shape test `/^\d{4}-\d{2}-\d{2}$/` together with the
subsequent `split("-").map(Number)`: on a matching string the split
yields exactly the three digit groups, whose decimal values are
returned. -/
def dateShape (s : String) : Option (Nat × Nat × Nat) :=
  match s.data with
  | [y1, y2, y3, y4, h1, m1, m2, h2, d1, d2] =>
      if y1.isDigit && y2.isDigit && y3.isDigit && y4.isDigit &&
          h1 == '-' && h2 == '-' &&
          m1.isDigit && m2.isDigit && d1.isDigit && d2.isDigit then
        some (digitsVal [y1, y2, y3, y4], digitsVal [m1, m2], digitsVal [d1, d2])
      else none
  | _ => none

/-- Models `isValidDate`: strict shape check, then the round-trip
comparison `getFullYear() === y && getMonth() === m - 1 && getDate() === d`
against `new Date(y, m - 1, d)`.  The comparisons are over JavaScript
numbers, hence `Int` (for `m = 0` the right-hand side `m - 1` is `-1`).
The `instanceof`/`isNaN` guards of the source are vacuous on 4-digit
years and are omitted. -/
def isValidDate (v : Option String) : Bool :=
  match dateShape (jsToString v) with
  | none => false
  | some (y, m, d) =>
      let c := jsDateFromComponents y m d
      ((c.year : Int) == (y : Int)) &&
        ((c.month : Int) - 1 == (m : Int) - 1) &&
        ((c.day : Int) == (d : Int))

/-- Models `isTooYoung` with the ambient clock made explicit: `today` is
the civil date of `todayUTC()`.  Unparseable input returns `true`
(fail-closed); otherwise the date of birth is compared against
`Date.UTC(today.year - minYears, today.monthIndex, today.day)`.
(Domain note: the source would produce a negative cutoff year when
`minYears` exceeds the current year; bounds that size never occur.) -/
def isTooYoung (today : CivilDate) (v : Option String) (minYears : Nat) : Bool :=
  match parseISODate v with
  | none => true
  | some (y, m, d) =>
      let dob := jsDateFromComponents y m d
      let cutoff := jsDateFromComponents (today.year - minYears) today.month today.day
      civilLt cutoff dob

/-- Models `isTooOld`, symmetric to `isTooYoung`: unparseable input
returns `true`; otherwise true iff the date of birth is strictly earlier
than `today` shifted back by `maxYears`. -/
def isTooOld (today : CivilDate) (v : Option String) (maxYears : Nat) : Bool :=
  match parseISODate v with
  | none => true
  | some (y, m, d) =>
      let dob := jsDateFromComponents y m d
      let cutoff := jsDateFromComponents (today.year - maxYears) today.month today.day
      civilLt dob cutoff

/-! ### The profanity matcher

`initializeValidator` builds `new RegExp("(" + profList.join("|") + ")\\b", "i")`
and the rules call its `test`.  For term lists free of regex
metacharacters other than the alternation bar (the intended shape of the
external word list), `test` succeeds iff some alternation branch matches
case-insensitively at some position of the input with a `\b` word
boundary immediately after the branch — there is no boundary requirement
before it. -/

/-- ASCII case-insensitive character comparison, as the `i` flag
canonicalizes letters. -/
def ciEqChar (a b : Char) : Bool := a.toLower == b.toLower

/-- JavaScript regex word character `\w = [A-Za-z0-9_]`. -/
def isWordChar (c : Char) : Bool := c.isAlphanum || c == '_'

/-- Word-character status of an optional character; out of bounds counts
as non-word, as in the `\b` assertion. -/
def optWord (c : Option Char) : Bool :=
  match c with
  | none => false
  | some c => isWordChar c

/-- Case-insensitive equality of character lists. -/
def ciListEq : List Char → List Char → Bool
  | [], [] => true
  | a :: as, b :: bs => ciEqChar a b && ciListEq as bs
  | _, _ => false

/-- One attempt of the regex `t\b` at the start of the suffix `s`, where
`prev` is the input character just before `s` (needed for `\b` when `t`
is empty): `t` must match `s` case-insensitively and the position after
the match must be a word boundary of the input. -/
def matchesHere (t : List Char) (prev : Option Char) (s : List Char) : Bool :=
  ciListEq t (s.take t.length) &&
    (optWord ((s.take t.length).getLast?.or prev) != optWord (s.drop t.length).head?)

/-- The regex engine's scan: try `matchesHere` at every position, keeping
track of the character before the current position. -/
def searchAux (t : List Char) : Option Char → List Char → Bool
  | prev, [] => matchesHere t prev []
  | prev, c :: cs => matchesHere t prev (c :: cs) || searchAux t (some c) cs

/-- Models `profanityRegex.test(s)` for the regex
`"(" + branches.join("|") + ")\b"` with flag `i`. -/
def regexTest (branches : List String) (s : String) : Bool :=
  branches.any (fun t => searchAux t.data none s.data)

/-- The alternation branches of `"(" + profList.join("|") + ")"`: an empty
list joins to the empty pattern, a single empty alternative.  This
reading of the constructed pattern is exact for term lists free of regex
metacharacters other than the bar. -/
def profanityBranches (profList : List String) : List String :=
  (splitOnChar '|' (joinBar profList)).map (fun cs => String.mk cs)

/-- The matcher built by `initializeValidator` from an available term
list. -/
def buildProfanityTest (profList : List String) : String → Bool :=
  regexTest (profanityBranches profList)

/-- Models the fallback regex `/^$/` used when the term list is missing:
it matches exactly the empty string. -/
def fallbackTest (s : String) : Bool := s.isEmpty

/-- Models `initializeValidator`: the matcher the constructed
`CharacterValidator` receives — the alternation regex when `profList`
is defined, the never-matching-nonempty fallback `/^$/` otherwise (the
latter after a `console.error` diagnostic, which has no further
effect on validation). -/
def initValidatorTest (profList : Option (List String)) : String → Bool :=
  match profList with
  | some l => buildProfanityTest l
  | none => fallbackTest

/-! ### The rule table and the validation entry points -/

/-- The result object: `{isValid: true}` or
`{isValid: false, field, message}`. -/
inductive VResult where
  | valid : VResult
  | invalid (field : String) (message : String) : VResult
deriving DecidableEq

/-- One entry of a rule list: a predicate (which, like the JavaScript
closure, may throw — `.error ()` models a `TypeError` such as reading
`.length` of `undefined`) and its error code. -/
structure JsRule where
  test : Option String → Except Unit Bool
  message : String

/-- JavaScript truthiness of a possibly absent string: `undefined` and
`""` are falsy, every other string truthy. -/
def truthy (v : Option String) : Bool :=
  match v with
  | none => false
  | some s => !s.isEmpty

/-- The `firstname` rule list of the `validators` table.  String
`.length` in Lean counts characters rather than UTF-16 code units; the
two agree on all inputs considered here. -/
def firstnameRules (prof : String → Bool) : List JsRule :=
  [ ⟨fun v => .ok (truthy v), "forgotten_field"⟩,
    ⟨fun v => match v with
      | none => .error ()
      | some s => .ok (decide (2 ≤ s.length)), "firstname_too_short"⟩,
    ⟨fun v => match v with
      | none => .error ()
      | some s => .ok (decide (s.length ≤ 16)), "firstname_too_long"⟩,
    ⟨fun v => .ok (!prof (jsToString v)), "profanity"⟩ ]

/-- The `lastname` rule list of the `validators` table. -/
def lastnameRules (prof : String → Bool) : List JsRule :=
  [ ⟨fun v => .ok (truthy v), "forgotten_field"⟩,
    ⟨fun v => match v with
      | none => .error ()
      | some s => .ok (decide (2 ≤ s.length)), "lastname_too_short"⟩,
    ⟨fun v => match v with
      | none => .error ()
      | some s => .ok (decide (s.length ≤ 16)), "lastname_too_long"⟩,
    ⟨fun v => .ok (!prof (jsToString v)), "profanity"⟩ ]

/-- The `nationality` rule list of the `validators` table. -/
def nationalityRules (prof : String → Bool) : List JsRule :=
  [ ⟨fun v => .ok (truthy v), "forgotten_field"⟩,
    ⟨fun v => .ok (!prof (jsToString v)), "profanity"⟩ ]

/-- The `gender` rule list of the `validators` table. -/
def genderRules : List JsRule :=
  [ ⟨fun v => .ok (truthy v), "forgotten_field"⟩ ]

/-- The `date` rule list of the `validators` table. -/
def dateRules (today : CivilDate) : List JsRule :=
  [ ⟨fun v => .ok (truthy v), "forgotten_field"⟩,
    ⟨fun v => .ok (isValidDate v), "invalid_date"⟩,
    ⟨fun v => .ok (!isTooYoung today v 8), "age_too_young"⟩,
    ⟨fun v => .ok (!isTooOld today v 100), "age_too_old"⟩ ]

/-- The `validators` table of `CharacterValidator`, in declaration order,
parametrized by the profanity matcher the constructor received and by
the civil date of `todayUTC()`. -/
def validators (prof : String → Bool) (today : CivilDate) :
    List (String × List JsRule) :=
  [ ("firstname", firstnameRules prof),
    ("lastname", lastnameRules prof),
    ("nationality", nationalityRules prof),
    ("gender", genderRules),
    ("date", dateRules today) ]

/-- The inner loop of `validateField`: run the rules in order, returning
`Invalid` with the first failing rule's message, propagating a thrown
exception, and `Valid` when every rule passes. -/
def runRules (f : String) : List JsRule → Option String → Except Unit VResult
  | [], _ => .ok .valid
  | r :: rs, v =>
      match r.test v with
      | .error e => .error e
      | .ok false => .ok (.invalid f r.message)
      | .ok true => runRules f rs v

/-- Models `validateField`: look up the field's rule list (`undefined`
for unknown fields, which yields `{isValid: true}`), then run it. -/
def validateField (prof : String → Bool) (today : CivilDate)
    (fieldName : String) (v : Option String) : Except Unit VResult :=
  match List.lookup fieldName (validators prof today) with
  | none => .ok .valid
  | some rules => runRules fieldName rules v

/-- The character record: the five fields the rule table knows about.
Other properties of the JavaScript object are never read by
`validateCharacter`, and a record has no observable key order. -/
structure CharacterData where
  firstname : Option String
  lastname : Option String
  nationality : Option String
  gender : Option String
  date : Option String

/-- Models the property access `character[field]` for the five field
names the loop of `validateCharacter` produces. -/
def getField (c : CharacterData) (f : String) : Option String :=
  if f == "firstname" then c.firstname
  else if f == "lastname" then c.lastname
  else if f == "nationality" then c.nationality
  else if f == "gender" then c.gender
  else if f == "date" then c.date
  else none

/-- The loop of `validateCharacter` over a list of field names: return
the first result that is not `{isValid: true}` (the `hasOwnProperty`
guard is always true for the table's own keys). -/
def validateFields (prof : String → Bool) (today : CivilDate)
    (c : CharacterData) : List String → Except Unit VResult
  | [] => .ok .valid
  | f :: fs =>
      match validateField prof today f (getField c f) with
      | .ok .valid => validateFields prof today c fs
      | r => r

/-- Models `validateCharacter`: iterate the keys of the `validators`
table in declaration order (`for...in` on an object literal with string
keys enumerates insertion order). -/
def validateCharacter (prof : String → Bool) (today : CivilDate)
    (c : CharacterData) : Except Unit VResult :=
  validateFields prof today c ((validators prof today).map Prod.fst)

/-- The declaration order of the rule table. -/
def fieldOrder : List String :=
  ["firstname", "lastname", "nationality", "gender", "date"]

/-- Whether a call completed without throwing. -/
def isOkRes (e : Except Unit VResult) : Bool :=
  match e with
  | .ok _ => true
  | .error _ => false

/-- Whether a call returned `{isValid: false}` with the given field and
message. -/
def isInvalidMsg (e : Except Unit VResult) (f m : String) : Bool :=
  match e with
  | .ok (.invalid g m2) => g == f && m2 == m
  | _ => false

/-- Whether a call returned the error code `profanity`. -/
def mentionsProfan (e : Except Unit VResult) : Bool :=
  match e with
  | .ok (.invalid _ m) => m == "profanity"
  | _ => false

/-! ### Lookup lemmas for the rule table -/

lemma lookup_firstname (prof : String → Bool) (today : CivilDate) :
    List.lookup "firstname" (validators prof today) = some (firstnameRules prof) := rfl

lemma lookup_lastname (prof : String → Bool) (today : CivilDate) :
    List.lookup "lastname" (validators prof today) = some (lastnameRules prof) := rfl

lemma lookup_nationality (prof : String → Bool) (today : CivilDate) :
    List.lookup "nationality" (validators prof today) = some (nationalityRules prof) := rfl

lemma lookup_gender (prof : String → Bool) (today : CivilDate) :
    List.lookup "gender" (validators prof today) = some genderRules := rfl

lemma lookup_date (prof : String → Bool) (today : CivilDate) :
    List.lookup "date" (validators prof today) = some (dateRules today) := rfl

/-- C5: for every non-empty date value on which `isValidDate` returns
false, `validateField "date"` returns Invalid with error code
`invalid_date` (never an age error), because the calendar-validity rule
precedes the age rules. -/
theorem C5_invalid_date_precedence (prof : String → Bool) (today : CivilDate)
    (v : Option String) (h1 : truthy v = true) (h2 : isValidDate v = false) :
    validateField prof today "date" v = .ok (.invalid "date" "invalid_date") := by
  simp only [validateField, lookup_date]
  simp [dateRules, runRules, h1, h2]

theorem C5_witness :
    validateField fallbackTest ⟨2024, 6, 15⟩ "date" (some "2023-40-01") =
      .ok (.invalid "date" "invalid_date") :=
  C5_invalid_date_precedence fallbackTest ⟨2024, 6, 15⟩ (some "2023-40-01") rfl rfl

/-- C6: fail-closed age checks: whenever `parseISODate` fails (a
component missing, non-numeric, or zero), both `isTooYoung` and
`isTooOld` return true, for every bound. -/
theorem C6_fail_closed (today : CivilDate) (v : Option String) (n : Nat)
    (h : parseISODate v = none) :
    isTooYoung today v n = true ∧ isTooOld today v n = true := by
  refine ⟨?_, ?_⟩ <;> simp [isTooYoung, isTooOld, h]

theorem C6_witness :
    isTooYoung ⟨2024, 6, 15⟩ (some "12/05/2000") 8 = true ∧
      isTooOld ⟨2024, 6, 15⟩ (some "12/05/2000") 8 = true :=
  C6_fail_closed ⟨2024, 6, 15⟩ (some "12/05/2000") 8 rfl

/-- C8: `validateField` on a field name with no rule list returns
`{isValid: true}` for every value, including absent and empty values. -/
theorem C8_unknown_field (prof : String → Bool) (today : CivilDate)
    (f : String) (v : Option String)
    (h : List.lookup f (validators prof today) = none) :
    validateField prof today f v = .ok .valid := by
  simp [validateField, h]

theorem C8_witness :
    validateField fallbackTest ⟨2024, 6, 15⟩ "cid" none = .ok .valid :=
  C8_unknown_field fallbackTest ⟨2024, 6, 15⟩ "cid" none rfl

/-! ### Year bounds for the normalized date -/

lemma nextDay_year_ge (c : CivilDate) : c.year ≤ (nextDay c).year := by
  unfold nextDay
  split
  · exact Nat.le_refl _
  split
  · exact Nat.le_refl _
  · exact Nat.le_succ _

lemma addDays_year_ge (c : CivilDate) (n : Nat) : c.year ≤ (addDays c n).year := by
  induction n generalizing c with
  | zero => exact Nat.le_refl _
  | succ k ih => exact Nat.le_trans (nextDay_year_ge c) (ih (nextDay c))

lemma prevDay_year_ge (c : CivilDate) : c.year - 1 ≤ (prevDay c).year := by
  unfold prevDay
  split
  · exact Nat.sub_le _ _
  split
  · exact Nat.sub_le _ _
  · exact Nat.le_refl _

lemma jsDate_eq_of_small (y m d : Nat) (hy : y ≤ 99) :
    jsDateFromComponents y m d =
      (if d = 0 then
        prevDay ⟨((1900 + y) * 12 + m - 1) / 12, ((1900 + y) * 12 + m - 1) % 12 + 1, 1⟩
      else
        addDays ⟨((1900 + y) * 12 + m - 1) / 12, ((1900 + y) * 12 + m - 1) % 12 + 1, 1⟩
          (d - 1)) := by
  unfold jsDateFromComponents
  rw [if_pos hy]

/-- The two-digit-year rule keeps the normalized year at least 1898
whatever the month and day components are. -/
lemma jsDate_year_lb (y m d : Nat) (hy : y ≤ 99) :
    1898 ≤ (jsDateFromComponents y m d).year := by
  rw [jsDate_eq_of_small y m d hy]
  have ht : 1899 ≤ ((1900 + y) * 12 + m - 1) / 12 := by
    have h1 : 22799 ≤ (1900 + y) * 12 + m - 1 := by omega
    calc 1899 = 22799 / 12 := by norm_num
      _ ≤ ((1900 + y) * 12 + m - 1) / 12 := Nat.div_le_div_right h1
  split
  · have hp := prevDay_year_ge
      ⟨((1900 + y) * 12 + m - 1) / 12, ((1900 + y) * 12 + m - 1) % 12 + 1, 1⟩
    dsimp only at hp
    omega
  · have ha := addDays_year_ge
      ⟨((1900 + y) * 12 + m - 1) / 12, ((1900 + y) * 12 + m - 1) % 12 + 1, 1⟩ (d - 1)
    dsimp only at ha
    omega

/-- C3: `isValidDate` accepts a string iff it has the strict
`YYYY-MM-DD` shape and the numeric components round-trip through date
construction without normalization; concretely Feb 29 is accepted
exactly in leap years and overflowing months/days are rejected. -/
theorem C3_isValidDate_roundtrip :
    (∀ s y m d, dateShape s = some (y, m, d) →
        (isValidDate (some s) = true ↔
          ((jsDateFromComponents y m d).year = y ∧
            (jsDateFromComponents y m d).month = m ∧
            (jsDateFromComponents y m d).day = d)))
    ∧ (∀ s, dateShape s = none → isValidDate (some s) = false)
    ∧ isValidDate (some "2023-02-29") = false
    ∧ isValidDate (some "2024-02-29") = true
    ∧ isValidDate (some "2023-13-01") = false
    ∧ isValidDate (some "2023-04-31") = false := by
  refine ⟨?_, ?_, by decide, by decide, by decide, by decide⟩
  · intro s y m d h
    simp only [isValidDate, jsToString, h, Bool.and_eq_true, beq_iff_eq]
    omega
  · intro s h
    simp only [isValidDate, jsToString, h]

theorem C3_witness :
    (jsDateFromComponents 2024 2 29).year = 2024 ∧
      (jsDateFromComponents 2024 2 29).month = 2 ∧
      (jsDateFromComponents 2024 2 29).day = 29 :=
  (C3_isValidDate_roundtrip.1 "2024-02-29" 2024 2 29 (by decide)).mp
    C3_isValidDate_roundtrip.2.2.2.1

/-- C10: every strict-shape date string whose four-digit year component
is below 100 is rejected by `isValidDate`, because the reconstruction
maps such years into the vicinity of 1900, which never equals the
input year. -/
theorem C10_small_year_rejected (s : String) (y m d : Nat)
    (h : dateShape s = some (y, m, d)) (hy : y < 100) :
    isValidDate (some s) = false := by
  simp only [isValidDate, jsToString, h]
  have hyear := jsDate_year_lb y m d (by omega)
  have hb : (((jsDateFromComponents y m d).year : Int) == (y : Int)) = false := by
    rw [beq_eq_false_iff_ne]
    omega
  simp [hb]

theorem C10_witness :
    dateShape "0099-12-31" = some (99, 12, 31) ∧ 99 < 100 ∧
      isValidDate (some "0099-12-31") = false :=
  ⟨by decide, by norm_num,
    C10_small_year_rejected "0099-12-31" 99 12 31 (by decide) (by norm_num)⟩

/-! ### Field-order properties of validateCharacter -/

lemma validators_keys (prof : String → Bool) (today : CivilDate) :
    (validators prof today).map Prod.fst = fieldOrder := rfl

lemma validateFields_valid_iff (prof : String → Bool) (today : CivilDate)
    (c : CharacterData) (fs : List String) :
    validateFields prof today c fs = .ok .valid ↔
      ∀ f ∈ fs, validateField prof today f (getField c f) = .ok .valid := by
  induction fs with
  | nil => simp [validateFields]
  | cons f fs ih =>
      simp only [validateFields, List.forall_mem_cons]
      cases h : validateField prof today f (getField c f) with
      | error e => simp [h]
      | ok r =>
          cases r with
          | valid => simp [h, ih]
          | invalid a b => simp [h]

/-- C2: `validateCharacter` walks the rule table's declaration order
`firstname, lastname, nationality, gender, date` and returns the first
Invalid result, with `{isValid: true}` exactly when all five fields
pass; in particular a record with an empty (or absent) firstname and a
malformed date reports the firstname error, not the date error. -/
theorem C2_field_order (prof : String → Bool) (today : CivilDate)
    (c : CharacterData) :
    (validateCharacter prof today c = .ok .valid ↔
      ∀ f ∈ fieldOrder, validateField prof today f (getField c f) = .ok .valid)
    ∧ ((c.firstname = none ∨ c.firstname = some "") → isValidDate c.date = false →
        validateCharacter prof today c = .ok (.invalid "firstname" "forgotten_field")) := by
  constructor
  · rw [validateCharacter, validators_keys]
    exact validateFields_valid_iff prof today c fieldOrder
  · intro h1 _h2
    obtain ⟨f1, f2, f3, f4, f5⟩ := c
    rcases h1 with h | h <;> simp only at h <;> subst h <;> rfl

theorem C2_witness :
    validateCharacter fallbackTest ⟨2024, 6, 15⟩
        ⟨none, some "Smith", some "Danish", some "m", some "2023-13-01"⟩ =
      .ok (.invalid "firstname" "forgotten_field") :=
  (C2_field_order fallbackTest ⟨2024, 6, 15⟩
      ⟨none, some "Smith", some "Danish", some "m", some "2023-13-01"⟩).2
    (Or.inl rfl) (by decide)

/-! ### Age rules -/

/-- C4 counterexample: with today = 2024-06-15 the claim asserts that
date of birth "2020-06-15" passes the age rules, but the code's
minimum-age cutoff is 2016-06-15 and 2020-06-15 is strictly later, so
`validateField` reports `age_too_young`. -/
theorem C4_counterexample :
    validateField fallbackTest ⟨2024, 6, 15⟩ "date" (some "2020-06-15") =
      .ok (.invalid "date" "age_too_young") := rfl

/-- C4 (amended): for every parseable date of birth, `isTooYoung` is
true iff the birth date is strictly later than today shifted back by
`minYears` (same month and day, as normalized by the Date constructor),
and `isTooOld` is true iff it is strictly earlier than today shifted
back by `maxYears`; hence with today = 2024-06-15, "2020-06-16" yields
`age_too_young`, "2016-06-15" (exactly 8) passes the age rules,
"1924-06-15" (exactly 100) passes, and "1924-06-14" yields
`age_too_old`. -/
theorem C4_age_rules :
    (∀ (today : CivilDate) (v : Option String) (y m d n : Nat),
        parseISODate v = some (y, m, d) →
          ((isTooYoung today v n = true ↔
              civilLt (jsDateFromComponents (today.year - n) today.month today.day)
                (jsDateFromComponents y m d) = true) ∧
            (isTooOld today v n = true ↔
              civilLt (jsDateFromComponents y m d)
                (jsDateFromComponents (today.year - n) today.month today.day) = true)))
    ∧ validateField fallbackTest ⟨2024, 6, 15⟩ "date" (some "2020-06-16") =
        .ok (.invalid "date" "age_too_young")
    ∧ validateField fallbackTest ⟨2024, 6, 15⟩ "date" (some "2016-06-15") = .ok .valid
    ∧ validateField fallbackTest ⟨2024, 6, 15⟩ "date" (some "1924-06-15") = .ok .valid
    ∧ validateField fallbackTest ⟨2024, 6, 15⟩ "date" (some "1924-06-14") =
        .ok (.invalid "date" "age_too_old") := by
  refine ⟨?_, rfl, rfl, rfl, rfl⟩
  intro today v y m d n h
  constructor <;> simp [isTooYoung, isTooOld, h]

theorem C4_witness :
    isTooYoung ⟨2024, 6, 15⟩ (some "2016-06-16") 8 = true :=
  ((C4_age_rules.1 ⟨2024, 6, 15⟩ (some "2016-06-16") 2016 6 16 8 rfl).1).mpr (by decide)

/-! ### Case analysis over the rule table -/

lemma lookup_cases (prof : String → Bool) (today : CivilDate) (f : String) :
    List.lookup f (validators prof today) = none ∨
      List.lookup f (validators prof today) = some (firstnameRules prof) ∨
      List.lookup f (validators prof today) = some (lastnameRules prof) ∨
      List.lookup f (validators prof today) = some (nationalityRules prof) ∨
      List.lookup f (validators prof today) = some genderRules ∨
      List.lookup f (validators prof today) = some (dateRules today) := by
  simp only [validators, List.lookup]
  cases f == "firstname" <;> cases f == "lastname" <;> cases f == "nationality" <;>
    cases f == "gender" <;> cases f == "date" <;> simp

lemma runRules_isOk (f : String) (rs : List JsRule) (v : Option String)
    (h : ∀ r ∈ rs, ∃ b, r.test v = .ok b) :
    isOkRes (runRules f rs v) = true := by
  induction rs with
  | nil => rfl
  | cons r rs ih =>
      obtain ⟨b, hb⟩ := h r (List.mem_cons_self r rs)
      cases b with
      | false => simp [runRules, hb, isOkRes]
      | true =>
          simp only [runRules, hb]
          exact ih (fun r hr => h r (List.mem_cons_of_mem _ hr))

/-- No rule list of the table can throw: the leading non-empty rule
returns before any `.length` access can dereference `undefined`, and on
a present string every test is total. -/
lemma validateField_isOk (prof : String → Bool) (today : CivilDate)
    (f : String) (v : Option String) :
    isOkRes (validateField prof today f v) = true := by
  rcases lookup_cases prof today f with h | h | h | h | h | h <;>
    simp only [validateField, h]
  · rfl
  all_goals
    cases v with
    | none => rfl
    | some s =>
        refine runRules_isOk f _ (some s) ?_
        intro r hr
        fin_cases hr <;> exact ⟨_, rfl⟩

lemma validateFields_isOk (prof : String → Bool) (today : CivilDate)
    (c : CharacterData) (fs : List String) :
    isOkRes (validateFields prof today c fs) = true := by
  induction fs with
  | nil => rfl
  | cons f fs ih =>
      have h := validateField_isOk prof today f (getField c f)
      simp only [validateFields]
      cases hr : validateField prof today f (getField c f) with
      | error e => rw [hr] at h; exact absurd h (by simp [isOkRes])
      | ok r =>
          cases r with
          | valid => exact ih
          | invalid a b => rfl

/-- C9: `validateField` and `validateCharacter` never throw on records of
strings and absent fields, and an absent or empty field is caught by the
leading non-empty rule (`forgotten_field`) of each of the five fields
before any length or regex rule touches the value. -/
theorem C9_total_no_throw (prof : String → Bool) (today : CivilDate)
    (c : CharacterData) (f : String) (v : Option String) :
    isOkRes (validateField prof today f v) = true ∧
      isOkRes (validateCharacter prof today c) = true ∧
      fieldOrder.all
        (fun g => isInvalidMsg (validateField prof today g none) g "forgotten_field") = true ∧
      fieldOrder.all
        (fun g => isInvalidMsg (validateField prof today g (some "")) g "forgotten_field") = true :=
  ⟨validateField_isOk prof today f v,
    validateFields_isOk prof today c ((validators prof today).map Prod.fst),
    rfl, rfl⟩

/-! ### The degraded matcher -/

lemma nameRules_no_prof (f : String) (v : Option String)
    (rs : List JsRule)
    (hrs : rs = firstnameRules (initValidatorTest none) ∨
      rs = lastnameRules (initValidatorTest none)) :
    mentionsProfan (runRules f rs v) = false := by
  cases v with
  | none => rcases hrs with rfl | rfl <;> rfl
  | some s =>
      cases h1 : truthy (some s) with
      | false =>
          rcases hrs with rfl | rfl <;>
            simp [firstnameRules, lastnameRules, runRules, h1, mentionsProfan]
      | true =>
          have hs : s.isEmpty = false := by simpa [truthy] using h1
          cases h2 : decide (2 ≤ s.length) <;> cases h3 : decide (s.length ≤ 16) <;>
            rcases hrs with rfl | rfl <;>
            simp [firstnameRules, lastnameRules, runRules, h1, h2, h3,
              initValidatorTest, fallbackTest, jsToString, hs, mentionsProfan]

/-- C7: when the forbidden-term list is unavailable, the validator is
constructed with the fallback matcher `/^$/`, and then no call to
`validateField` — any field name, any value — returns the error code
`profanity`. -/
theorem C7_fallback_no_profanity (today : CivilDate) (f : String) (v : Option String) :
    mentionsProfan (validateField (initValidatorTest none) today f v) = false := by
  rcases lookup_cases (initValidatorTest none) today f with h | h | h | h | h | h <;>
    simp only [validateField, h]
  · rfl
  · exact nameRules_no_prof f v _ (Or.inl rfl)
  · exact nameRules_no_prof f v _ (Or.inr rfl)
  · -- nationality
    cases v with
    | none => rfl
    | some s =>
        cases h1 : truthy (some s) with
        | false => simp [nationalityRules, runRules, h1, mentionsProfan]
        | true =>
            have hs : s.isEmpty = false := by simpa [truthy] using h1
            simp [nationalityRules, runRules, h1, initValidatorTest, fallbackTest,
              jsToString, hs, mentionsProfan]
  · -- gender
    cases v with
    | none => rfl
    | some s =>
        cases h1 : truthy (some s) <;> simp [genderRules, runRules, h1, mentionsProfan]
  · -- date
    cases v with
    | none => rfl
    | some s =>
        cases h1 : truthy (some s) <;> cases h2 : isValidDate (some s) <;>
          cases h3 : isTooYoung today (some s) 8 <;>
          cases h4 : isTooOld today (some s) 100 <;>
          simp [dateRules, runRules, h1, h2, h3, h4, mentionsProfan]

/-! ### Characterizing the profanity regex -/

lemma ciListEq_length {t u : List Char} (h : ciListEq t u = true) :
    t.length = u.length := by
  induction t generalizing u with
  | nil =>
      cases u with
      | nil => rfl
      | cons b bs => simp [ciListEq] at h
  | cons a as ih =>
      cases u with
      | nil => simp [ciListEq] at h
      | cons b bs =>
          rw [ciListEq, Bool.and_eq_true] at h
          simp [ih h.2]

lemma getLast?_append_or (l1 l2 : List Char) :
    (l1 ++ l2).getLast? = (l2.getLast?).or (l1.getLast?) := by
  cases l2 with
  | nil => simp
  | cons b bs =>
      rw [List.getLast?_append_cons]
      obtain ⟨x, hx⟩ := Option.isSome_iff_exists.mp
        (List.getLast?_isSome.mpr (List.cons_ne_nil b bs) :
          ((b :: bs).getLast?).isSome)
      rw [hx]
      rfl

lemma getLast?_or_cons (c : Char) (pre : List Char) (prev : Option Char) :
    ((c :: pre).getLast?).or prev = (pre.getLast?).or (some c) := by
  have h : (c :: pre).getLast? = (pre.getLast?).or (some c) := by
    simpa using getLast?_append_or [c] pre
  rw [h, Option.or_assoc]
  rfl

lemma matchesHere_iff (t : List Char) (prev : Option Char) (s : List Char) :
    matchesHere t prev s = true ↔
      ∃ mid rest, s = mid ++ rest ∧ ciListEq t mid = true ∧
        (optWord ((mid.getLast?).or prev) != optWord rest.head?) = true := by
  constructor
  · intro h
    rw [matchesHere, Bool.and_eq_true] at h
    exact ⟨s.take t.length, s.drop t.length, (List.take_append_drop t.length s).symm,
      h.1, h.2⟩
  · rintro ⟨mid, rest, rfl, hci, hb⟩
    have hlen : t.length = mid.length := ciListEq_length hci
    rw [matchesHere, Bool.and_eq_true]
    refine ⟨?_, ?_⟩
    · rw [hlen, List.take_left]
      exact hci
    · rw [hlen, List.take_left, List.drop_left]
      exact hb

lemma searchAux_iff (t : List Char) (prev : Option Char) (s : List Char) :
    searchAux t prev s = true ↔
      ∃ pre suf, s = pre ++ suf ∧
        matchesHere t ((pre.getLast?).or prev) suf = true := by
  induction s generalizing prev with
  | nil =>
      constructor
      · intro h
        exact ⟨[], [], rfl, h⟩
      · rintro ⟨pre, suf, hps, h⟩
        obtain ⟨rfl, rfl⟩ := List.append_eq_nil.mp hps.symm
        exact h
  | cons c cs ih =>
      rw [searchAux, Bool.or_eq_true, ih (some c)]
      constructor
      · rintro (h | ⟨pre, suf, hcs, h⟩)
        · exact ⟨[], c :: cs, rfl, h⟩
        · refine ⟨c :: pre, suf, by rw [hcs]; rfl, ?_⟩
          rw [getLast?_or_cons]
          exact h
      · rintro ⟨pre, suf, hps, h⟩
        cases pre with
        | nil =>
            cases hps
            exact Or.inl h
        | cons p ps =>
            obtain ⟨rfl, hcs⟩ : p = c ∧ cs = ps ++ suf := by
              have h1 := hps
              rw [List.cons_append] at h1
              exact ⟨(List.cons.injEq _ _ _ _ ▸ h1).1.symm,
                (List.cons.injEq _ _ _ _ ▸ h1).2⟩
            refine Or.inr ⟨ps, suf, hcs, ?_⟩
            rw [getLast?_or_cons] at h
            exact h

/-- C1 counterexample: with forbidden term "bad", the value "xbad" — in
which the term occurs only as a proper suffix of a larger word — is
flagged as `profanity` by the matching rule, because the constructed
regex `(bad)\b` has a word-boundary assertion only after the term, not
before it. -/
theorem C1_counterexample :
    ("xbad" == "bad") = false ∧
      validateField (buildProfanityTest ["bad"]) ⟨2024, 6, 15⟩ "firstname"
          (some "xbad") =
        .ok (.invalid "firstname" "profanity") :=
  ⟨rfl, rfl⟩

/-- C1 (amended): profanity matching is case-insensitive and anchored
only at the end of the term: the matcher flags a value iff some
alternation branch occurs in it case-insensitively at a position whose
end is a word boundary.  In particular a value equal to a letters-only
forbidden term in any case is flagged, a value where the term is
followed by further word characters is not flagged at that occurrence,
but a term merely preceded by extra letters IS flagged — there is no
whole-word requirement at the start. -/
theorem C1_matcher_end_boundary (branches : List String) (s : String) :
    regexTest branches s = true ↔
      ∃ t ∈ branches, ∃ pre mid rest : List Char,
        s.data = pre ++ mid ++ rest ∧ ciListEq t.data mid = true ∧
          (optWord ((pre ++ mid).getLast?) != optWord rest.head?) = true := by
  rw [regexTest, List.any_eq_true]
  constructor
  · rintro ⟨t, ht, hs⟩
    rw [searchAux_iff] at hs
    obtain ⟨pre, suf, hps, h⟩ := hs
    rw [matchesHere_iff] at h
    obtain ⟨mid, rest, hmr, hci, hb⟩ := h
    refine ⟨t, ht, pre, mid, rest, ?_, hci, ?_⟩
    · rw [hps, hmr, List.append_assoc]
    · rw [getLast?_append_or]
      rw [Option.or_none] at hb
      exact hb
  · rintro ⟨t, ht, pre, mid, rest, hps, hci, hb⟩
    refine ⟨t, ht, ?_⟩
    rw [searchAux_iff]
    refine ⟨pre, mid ++ rest, by rw [hps, List.append_assoc], ?_⟩
    rw [matchesHere_iff]
    refine ⟨mid, rest, rfl, hci, ?_⟩
    rw [Option.or_none]
    rw [getLast?_append_or] at hb
    exact hb

theorem C1_witness : regexTest ["bad"] "xBAD" = true :=
  (C1_matcher_end_boundary ["bad"] "xBAD").mpr
    ⟨"bad", by simp, ['x'], ['B', 'A', 'D'], [], by decide, by decide, by decide⟩
